import Mathlib

/-!
Shallow embedding of the pendulum scene repository.

The repository contains two variants of the `Pendulum` class:
* the physics variant (`src/main.js`): drag / swing state machine with a
  semi-implicit Euler integrator and per-frame damping;
* the kinematic variant (`src/unnamed/part_000`): a closed-form cosine
  oscillation driven purely by elapsed time.

Visual meshes are modelled by the single field the pendulum code writes,
`rotation.z`.  JavaScript numbers are modelled by real numbers; times are
in milliseconds as in the source.
-/

namespace PendulumJS

/-- The z component of a mesh rotation, the only mesh state the pendulum
code touches (`this.string.rotation.z`, `this.ball.rotation.z`). -/
structure Rot where
  z : ℝ

/-- A mesh handle as seen by the pendulum code: only its rotation matters. -/
structure Mesh where
  rotation : Rot

/-- State of the physics-variant `Pendulum` class (`src/main.js`, lines
44-93): mesh handles, constructor parameters and motion state. -/
structure Pendulum where
  string : Mesh
  ball : Mesh
  frequency : ℝ
  amplitude : ℝ
  isSwinging : Bool
  angle : ℝ
  velocity : ℝ
  lastUpdateTime : ℝ

/-- Constructor of the physics-variant `Pendulum` (`src/main.js` lines
45-54): stores the meshes and parameters, starts not swinging, at angle 0,
velocity 0, lastUpdateTime 0. -/
def Pendulum.mk0 (stringMesh ballMesh : Mesh) (frequency amplitude : ℝ) :
    Pendulum :=
  { string := stringMesh
    ball := ballMesh
    frequency := frequency
    amplitude := amplitude
    isSwinging := false
    angle := 0
    velocity := 0
    lastUpdateTime := 0 }

/-- Method `updatePendulumPosition` (`src/main.js` lines 62-67): writes the
current angle to both mesh rotations. -/
def Pendulum.updatePendulumPosition (p : Pendulum) : Pendulum :=
  { p with
    string := { rotation := { z := p.angle } }
    ball := { rotation := { z := p.angle } } }

/-- Method `setAngleFromMouse(x, y)` (`src/main.js` lines 56-60).  The
window width `window.innerWidth` is passed explicitly as `innerWidth`.
The `y` coordinate is received but never read, as in the source. -/
noncomputable def Pendulum.setAngleFromMouse (innerWidth : ℝ) (p : Pendulum)
    (x y : ℝ) : Pendulum :=
  let relativeX := x - innerWidth / 2
  Pendulum.updatePendulumPosition
    { p with angle := relativeX / (innerWidth / 2) * Real.pi / 4 }

/-- Method `update(totalTime)` (`src/main.js` lines 69-82): while swinging,
one semi-implicit Euler step (acceleration, then velocity, then angle using
the new velocity) followed by the damping multiplication; in either case the
angle is written through to the meshes. -/
noncomputable def Pendulum.update (p : Pendulum) (totalTime : ℝ) : Pendulum :=
  if p.isSwinging then
    let deltaTime := (totalTime - p.lastUpdateTime) / 1000
    let acceleration := -9.81 / 8 * Real.sin p.angle
    let velocity1 := p.velocity + acceleration * deltaTime
    let angle1 := p.angle + velocity1 * deltaTime
    Pendulum.updatePendulumPosition
      { p with
        lastUpdateTime := totalTime
        velocity := velocity1 * 0.99995
        angle := angle1 }
  else
    Pendulum.updatePendulumPosition p

/-- Method `startSwinging(totalTime)` (`src/main.js` lines 84-88). -/
def Pendulum.startSwinging (p : Pendulum) (totalTime : ℝ) : Pendulum :=
  { p with
    isSwinging := true
    lastUpdateTime := totalTime
    velocity := 0 }

/-- Method `stopSwinging()` (`src/main.js` lines 90-92). -/
def Pendulum.stopSwinging (p : Pendulum) : Pendulum :=
  { p with isSwinging := false }

/-- Folding `update` over a list of call times, modelling a sequence of
frame updates with no intervening pointer input. -/
noncomputable def Pendulum.updates (p : Pendulum) (ts : List ℝ) : Pendulum :=
  ts.foldl Pendulum.update p

/-- State of the kinematic-variant `Pendulum` class
(`src/unnamed/part_000`, lines 76-89): mesh handles and the two
constructor parameters; no motion state. -/
structure KPendulum where
  string : Mesh
  ball : Mesh
  frequency : ℝ
  amplitude : ℝ

/-- Method `update(totalTime)` of the kinematic variant
(`src/unnamed/part_000` lines 84-88): closed-form cosine angle written to
both mesh rotations. -/
noncomputable def KPendulum.update (p : KPendulum) (totalTime : ℝ) :
    KPendulum :=
  let angle := p.amplitude * Real.cos (p.frequency * totalTime / 1000)
  { p with
    string := { rotation := { z := angle } }
    ball := { rotation := { z := angle } } }

/-- Concrete mesh used by witnesses. -/
def mesh0 : Mesh := { rotation := { z := 0 } }

/-- Concrete swinging rest-state pendulum used by witnesses. -/
def pRest : Pendulum :=
  { string := mesh0
    ball := mesh0
    frequency := 1.2
    amplitude := 0.5
    isSwinging := true
    angle := 0
    velocity := 0
    lastUpdateTime := 0 }

/-- Claim C1: in the physics variant, for every state with `isSwinging`
true and every call `update(totalTime)`, the state is advanced by exactly
one semi-implicit Euler step in this order: `deltaTimeSeconds =
(totalTime - lastUpdateTime)/1000`, `lastUpdateTime` set to `totalTime`,
`acceleration = -(9.81/8) * sin angle`, velocity increased by
`acceleration * deltaTimeSeconds`, angle increased by the new velocity
times `deltaTimeSeconds`, then velocity multiplied by the damping factor
`0.99995` applied once per call. -/
theorem euler_step_order (p : Pendulum) (totalTime : ℝ)
    (hs : p.isSwinging = true) :
    (p.update totalTime).lastUpdateTime = totalTime ∧
    (p.update totalTime).velocity =
      (p.velocity + -(9.81 / 8) * Real.sin p.angle *
        ((totalTime - p.lastUpdateTime) / 1000)) * 0.99995 ∧
    (p.update totalTime).angle =
      p.angle + (p.velocity + -(9.81 / 8) * Real.sin p.angle *
        ((totalTime - p.lastUpdateTime) / 1000)) *
        ((totalTime - p.lastUpdateTime) / 1000) := by
  simp only [Pendulum.update, hs, if_true, Pendulum.updatePendulumPosition]
  refine ⟨trivial, by ring_nf, by ring_nf⟩

/-- Witness for C1 at the concrete pendulum `pRest` and time 1000. -/
theorem euler_step_order_witness :
    pRest.isSwinging = true ∧
    ((pRest.update 1000).lastUpdateTime = 1000 ∧
    (pRest.update 1000).velocity =
      (pRest.velocity + -(9.81 / 8) * Real.sin pRest.angle *
        ((1000 - pRest.lastUpdateTime) / 1000)) * 0.99995 ∧
    (pRest.update 1000).angle =
      pRest.angle + (pRest.velocity + -(9.81 / 8) * Real.sin pRest.angle *
        ((1000 - pRest.lastUpdateTime) / 1000)) *
        ((1000 - pRest.lastUpdateTime) / 1000)) :=
  ⟨rfl, euler_step_order pRest 1000 rfl⟩

/-- Claim C2: in the kinematic variant, `update(totalTimeMs)` sets the
displayed angle to `amplitude * cos (frequency * totalTimeMs / 1000)` on
both the string and ball transforms; the result depends only on
`totalTimeMs` and the constructor parameters, and repeating the call with
the same `totalTimeMs` is idempotent. -/
theorem kinematic_update_closed_form (p : KPendulum) (totalTimeMs : ℝ) :
    (p.update totalTimeMs).string.rotation.z =
      p.amplitude * Real.cos (p.frequency * totalTimeMs / 1000) ∧
    (p.update totalTimeMs).ball.rotation.z =
      p.amplitude * Real.cos (p.frequency * totalTimeMs / 1000) ∧
    (p.update totalTimeMs).update totalTimeMs = p.update totalTimeMs ∧
    ∀ q : KPendulum, p.frequency = q.frequency → p.amplitude = q.amplitude →
      (p.update totalTimeMs).string = (q.update totalTimeMs).string ∧
      (p.update totalTimeMs).ball = (q.update totalTimeMs).ball := by
  refine ⟨rfl, rfl, rfl, ?_⟩
  intro q hf ha
  simp [KPendulum.update, hf, ha]

/-- Claim C3: `setAngleFromMouse(x, y)` sets the angle to the unclamped
linear map `((x - innerWidth/2) / (innerWidth/2)) * pi/4` and writes it to
both visual transforms regardless of `isSwinging`; the result is
independent of `y`; at `x = innerWidth/2` the angle is 0, at `x = 0` it is
`-pi/4`, and at `x = innerWidth` it is `pi/4` (for a positive window
width). -/
theorem setAngleFromMouse_linear_map (innerWidth : ℝ) (p : Pendulum)
    (x y : ℝ) (hw : 0 < innerWidth) :
    (p.setAngleFromMouse innerWidth x y).angle =
      (x - innerWidth / 2) / (innerWidth / 2) * Real.pi / 4 ∧
    (p.setAngleFromMouse innerWidth x y).string.rotation.z =
      (p.setAngleFromMouse innerWidth x y).angle ∧
    (p.setAngleFromMouse innerWidth x y).ball.rotation.z =
      (p.setAngleFromMouse innerWidth x y).angle ∧
    (p.setAngleFromMouse innerWidth x y).isSwinging = p.isSwinging ∧
    (∀ y2 : ℝ, p.setAngleFromMouse innerWidth x y2 =
      p.setAngleFromMouse innerWidth x y) ∧
    (p.setAngleFromMouse innerWidth (innerWidth / 2) y).angle = 0 ∧
    (p.setAngleFromMouse innerWidth 0 y).angle = -(Real.pi / 4) ∧
    (p.setAngleFromMouse innerWidth innerWidth y).angle = Real.pi / 4 := by
  have hne : innerWidth / 2 ≠ 0 := ne_of_gt (by linarith)
  refine ⟨rfl, rfl, rfl, rfl, fun y2 => rfl, ?_, ?_, ?_⟩
  · simp [Pendulum.setAngleFromMouse, Pendulum.updatePendulumPosition]
  · show (0 - innerWidth / 2) / (innerWidth / 2) * Real.pi / 4 = -(Real.pi / 4)
    rw [zero_sub, neg_div, div_self hne]
    ring
  · show (innerWidth - innerWidth / 2) / (innerWidth / 2) * Real.pi / 4 =
      Real.pi / 4
    have hhalf : innerWidth - innerWidth / 2 = innerWidth / 2 := by ring
    rw [hhalf, div_self hne]
    ring

/-- Witness for C3 at window width 2, pendulum `pRest`, mouse (3, 5). -/
theorem setAngleFromMouse_linear_map_witness :
    (0 : ℝ) < 2 ∧
    ((pRest.setAngleFromMouse 2 3 5).angle =
      (3 - 2 / 2) / (2 / 2) * Real.pi / 4 ∧
    (pRest.setAngleFromMouse 2 3 5).string.rotation.z =
      (pRest.setAngleFromMouse 2 3 5).angle ∧
    (pRest.setAngleFromMouse 2 3 5).ball.rotation.z =
      (pRest.setAngleFromMouse 2 3 5).angle ∧
    (pRest.setAngleFromMouse 2 3 5).isSwinging = pRest.isSwinging ∧
    (∀ y2 : ℝ, pRest.setAngleFromMouse 2 3 y2 =
      pRest.setAngleFromMouse 2 3 5) ∧
    (pRest.setAngleFromMouse 2 (2 / 2) 5).angle = 0 ∧
    (pRest.setAngleFromMouse 2 0 5).angle = -(Real.pi / 4) ∧
    (pRest.setAngleFromMouse 2 2 5).angle = Real.pi / 4) :=
  ⟨by norm_num, setAngleFromMouse_linear_map 2 pRest 3 5 (by norm_num)⟩

/-- Claim C4: `startSwinging(currentTimeMs)` yields `isSwinging = true`,
`velocity = 0`, `lastUpdateTime = currentTimeMs`, leaves the angle
unchanged, and the first subsequent integration step computes its delta
time from `currentTimeMs`. -/
theorem startSwinging_resets (p : Pendulum) (currentTimeMs tNext : ℝ) :
    (p.startSwinging currentTimeMs).isSwinging = true ∧
    (p.startSwinging currentTimeMs).velocity = 0 ∧
    (p.startSwinging currentTimeMs).lastUpdateTime = currentTimeMs ∧
    (p.startSwinging currentTimeMs).angle = p.angle ∧
    ((p.startSwinging currentTimeMs).update tNext).angle =
      p.angle + (0 + -(9.81 / 8) * Real.sin p.angle *
        ((tNext - currentTimeMs) / 1000)) * ((tNext - currentTimeMs) / 1000) := by
  refine ⟨rfl, rfl, rfl, rfl, ?_⟩
  simp only [Pendulum.update, Pendulum.startSwinging,
    Pendulum.updatePendulumPosition, if_true]
  ring_nf

/-- One integrator step from the rest state at angle 0 stays at rest, in
either mode. -/
theorem update_rest_fixed (q : Pendulum) (t : ℝ) (h1 : q.angle = 0)
    (h2 : q.velocity = 0) :
    (q.update t).angle = 0 ∧ (q.update t).velocity = 0 := by
  by_cases hs : q.isSwinging <;>
    simp [Pendulum.update, hs, Pendulum.updatePendulumPosition, h1, h2]

/-- Witness for `update_rest_fixed` at `pRest` and time 42. -/
theorem update_rest_fixed_witness :
    pRest.angle = 0 ∧ pRest.velocity = 0 ∧
    ((pRest.update 42).angle = 0 ∧ (pRest.update 42).velocity = 0) :=
  ⟨rfl, rfl, update_rest_fixed pRest 42 rfl rfl⟩

/-- Any sequence of update calls keeps the rest state at angle 0. -/
theorem updates_rest_fixed (ts : List ℝ) :
    ∀ q : Pendulum, q.angle = 0 → q.velocity = 0 →
      (q.updates ts).angle = 0 ∧ (q.updates ts).velocity = 0 := by
  induction ts with
  | nil => intro q h1 h2; exact ⟨h1, h2⟩
  | cons t ts ih =>
    intro q h1 h2
    have hstep := update_rest_fixed q t h1 h2
    have hfold : q.updates (t :: ts) = (q.update t).updates ts := rfl
    rw [hfold]
    exact ih (q.update t) hstep.1 hstep.2

/-- Witness for `updates_rest_fixed` at `pRest` and times [100, 250]. -/
theorem updates_rest_fixed_witness :
    pRest.angle = 0 ∧ pRest.velocity = 0 ∧
    ((pRest.updates [100, 250]).angle = 0 ∧
     (pRest.updates [100, 250]).velocity = 0) :=
  ⟨rfl, rfl, updates_rest_fixed [100, 250] pRest rfl rfl⟩

/-- Claim C5: in the physics variant, if `startSwinging` is called on a
pendulum whose angle is 0, then after every subsequent sequence of
`update(totalTime)` calls with no intervening `setAngleFromMouse`, the
velocity remains exactly 0 and the angle remains exactly 0: the rest
state at angle 0 is a fixed point of the integrator. -/
theorem rest_equilibrium (p : Pendulum) (t : ℝ) (ts : List ℝ)
    (h : p.angle = 0) :
    ((p.startSwinging t).updates ts).angle = 0 ∧
    ((p.startSwinging t).updates ts).velocity = 0 :=
  updates_rest_fixed ts (p.startSwinging t) h rfl

/-- Witness for C5 at `pRest`, start time 0, update times [100, 250]. -/
theorem rest_equilibrium_witness :
    pRest.angle = 0 ∧
    (((pRest.startSwinging 0).updates [100, 250]).angle = 0 ∧
     ((pRest.startSwinging 0).updates [100, 250]).velocity = 0) :=
  ⟨rfl, rest_equilibrium pRest 0 [100, 250] rfl⟩

/-- Claim C7: after every operation that mutates the angle
(`setAngleFromMouse` in either mode, and `update` whether or not
`isSwinging` is true), both visual transforms carry the current angle and
hence equal each other. -/
theorem visuals_mirror_angle (p : Pendulum) (innerWidth x y t : ℝ) :
    ((p.setAngleFromMouse innerWidth x y).string.rotation.z =
      (p.setAngleFromMouse innerWidth x y).angle ∧
     (p.setAngleFromMouse innerWidth x y).ball.rotation.z =
      (p.setAngleFromMouse innerWidth x y).angle) ∧
    ((p.update t).string.rotation.z = (p.update t).angle ∧
     (p.update t).ball.rotation.z = (p.update t).angle) ∧
    (p.update t).string.rotation.z = (p.update t).ball.rotation.z := by
  refine ⟨⟨rfl, rfl⟩, ?_, ?_⟩ <;> by_cases hs : p.isSwinging <;>
    simp [Pendulum.update, hs, Pendulum.updatePendulumPosition]

/-- Concrete non-swinging pendulum used by witnesses. -/
def pDrag : Pendulum := { pRest with isSwinging := false, angle := 1 }

/-- Claim C8: `stopSwinging()` sets `isSwinging` to false and changes
nothing else (angle, velocity, lastUpdateTime, frequency, amplitude and
both visual transforms are unchanged; velocity is not cleared); and while
`isSwinging` is false, `update(totalTime)` leaves angle, velocity and
`lastUpdateTime` unchanged. -/
theorem stop_and_idle_update (p : Pendulum) (t : ℝ) :
    (p.stopSwinging.isSwinging = false ∧
     p.stopSwinging.angle = p.angle ∧
     p.stopSwinging.velocity = p.velocity ∧
     p.stopSwinging.lastUpdateTime = p.lastUpdateTime ∧
     p.stopSwinging.frequency = p.frequency ∧
     p.stopSwinging.amplitude = p.amplitude ∧
     p.stopSwinging.string = p.string ∧
     p.stopSwinging.ball = p.ball) ∧
    (p.isSwinging = false →
      (p.update t).angle = p.angle ∧
      (p.update t).velocity = p.velocity ∧
      (p.update t).lastUpdateTime = p.lastUpdateTime) := by
  refine ⟨⟨rfl, rfl, rfl, rfl, rfl, rfl, rfl, rfl⟩, ?_⟩
  intro hs
  simp [Pendulum.update, hs, Pendulum.updatePendulumPosition]

/-- Witness for C8 at the non-swinging pendulum `pDrag` and time 7. -/
theorem stop_and_idle_update_witness :
    pDrag.isSwinging = false ∧
    ((pDrag.update 7).angle = pDrag.angle ∧
     (pDrag.update 7).velocity = pDrag.velocity ∧
     (pDrag.update 7).lastUpdateTime = pDrag.lastUpdateTime) :=
  ⟨rfl, (stop_and_idle_update pDrag 7).2 rfl⟩

/-- Global interaction state of the physics variant (`src/main.js`):
the drag flag and last pointer position (lines 5-7) together with the
pendulum list (line 179). -/
structure World where
  isDragging : Bool
  lastMouseX : ℝ
  lastMouseY : ℝ
  pendulums : List Pendulum

/-- Handler `onMouseMove(event)` (`src/main.js` lines 200-209): while
dragging, record the pointer position and immediately set every
pendulum's angle from it; otherwise do nothing. -/
noncomputable def onMouseMove (w : World) (innerWidth cx cy : ℝ) : World :=
  if w.isDragging then
    { w with
      lastMouseX := cx
      lastMouseY := cy
      pendulums := w.pendulums.map fun p =>
        p.setAngleFromMouse innerWidth cx cy }
  else w

/-- Per-frame `update(deltaTime, totalTime)` (`src/main.js` lines
243-256): while dragging it mutates no pendulum directly but schedules,
for each pendulum index `i`, a deferred `setAngleFromMouse` with delay
`i * 30` ms (returned here as the list of scheduled index/delay pairs);
otherwise it advances every pendulum's physics. -/
noncomputable def frameUpdate (w : World) (totalTime : ℝ) :
    World × List (ℕ × ℝ) :=
  if w.isDragging then
    (w, (List.range w.pendulums.length).map fun i => (i, (i : ℝ) * 30))
  else
    ({ w with pendulums := w.pendulums.map fun p => p.update totalTime }, [])

/-- Concrete dragging world with two rest pendulums, used to refute C9. -/
def wDrag : World :=
  { isDragging := true
    lastMouseX := 0
    lastMouseY := 0
    pendulums := [{ pRest with isSwinging := false },
                  { pRest with isSwinging := false }] }

/-- Counterexample to claim C9 as stated: on a pointer move to
`x = innerWidth` (window width 2), the `onMouseMove` handler itself
rewrites every pendulum's angle synchronously — pendulum 1's angle jumps
from 0 to `pi/4` with no `30 * index` ms stagger, so an angle IS set from
a pointer move without the stagger. -/
theorem mousemove_no_stagger_counterexample :
    wDrag.isDragging = true ∧
    (wDrag.pendulums.map Pendulum.angle) = [0, 0] ∧
    ((onMouseMove wDrag 2 2 5).pendulums.map Pendulum.angle) =
      [Real.pi / 4, Real.pi / 4] ∧
    (Real.pi / 4 : ℝ) ≠ 0 := by
  refine ⟨rfl, rfl, ?_, by positivity⟩
  simp [onMouseMove, wDrag, Pendulum.setAngleFromMouse,
    Pendulum.updatePendulumPosition]
  norm_num

/-- Claim C9 (amended): while the pointer is pressed, each pointer-move
event immediately (synchronously, with no delay) re-sets every pendulum's
angle from the current pointer position; separately, the per-frame update
loop, while dragging, does not mutate any pendulum directly but schedules
for each pendulum index `i` a deferred angle-set task with delay
`i * 30` ms. -/
theorem mousemove_immediate_frame_staggered (w : World)
    (innerWidth cx cy t : ℝ) (hd : w.isDragging = true) :
    (onMouseMove w innerWidth cx cy).pendulums =
      w.pendulums.map (fun p => p.setAngleFromMouse innerWidth cx cy) ∧
    (onMouseMove w innerWidth cx cy).lastMouseX = cx ∧
    (onMouseMove w innerWidth cx cy).lastMouseY = cy ∧
    (frameUpdate w t).1 = w ∧
    (frameUpdate w t).2 =
      (List.range w.pendulums.length).map
        (fun i => ((i, (i : ℝ) * 30) : ℕ × ℝ)) := by
  simp [onMouseMove, frameUpdate, hd]

/-- Witness for the amended C9 at the concrete dragging world `wDrag`. -/
theorem mousemove_immediate_frame_staggered_witness :
    wDrag.isDragging = true ∧
    ((onMouseMove wDrag 2 2 5).pendulums =
      wDrag.pendulums.map (fun p => p.setAngleFromMouse 2 2 5) ∧
    (onMouseMove wDrag 2 2 5).lastMouseX = 2 ∧
    (onMouseMove wDrag 2 2 5).lastMouseY = 5 ∧
    (frameUpdate wDrag 16).1 = wDrag ∧
    (frameUpdate wDrag 16).2 =
      (List.range wDrag.pendulums.length).map
        (fun i => ((i, (i : ℝ) * 30) : ℕ × ℝ))) :=
  ⟨rfl, mousemove_immediate_frame_staggered wDrag 2 2 5 16 rfl⟩

/-- An operation on a physics-variant pendulum: one of the four methods
callable from the input controller and render loop. -/
inductive Op where
  | update (totalTime : ℝ)
  | setAngle (x y : ℝ)
  | start (totalTime : ℝ)
  | stop

/-- Apply one operation to a pendulum (window width passed through for
`setAngleFromMouse`). -/
noncomputable def applyOp (innerWidth : ℝ) (p : Pendulum) : Op → Pendulum
  | Op.update t => p.update t
  | Op.setAngle x y => p.setAngleFromMouse innerWidth x y
  | Op.start t => p.startSwinging t
  | Op.stop => p.stopSwinging

/-- Apply a sequence of operations from left to right. -/
noncomputable def applyOps (innerWidth : ℝ) (p : Pendulum) (ops : List Op) :
    Pendulum :=
  ops.foldl (applyOp innerWidth) p

/-- Agreement of two pendulums on every field except `frequency` and
`amplitude`. -/
def agree (p q : Pendulum) : Prop :=
  p.angle = q.angle ∧ p.velocity = q.velocity ∧
  p.isSwinging = q.isSwinging ∧ p.lastUpdateTime = q.lastUpdateTime ∧
  p.string = q.string ∧ p.ball = q.ball

/-- No operation reads `frequency` or `amplitude`: one operation preserves
agreement on all the other fields. -/
theorem applyOp_agree (innerWidth : ℝ) (p q : Pendulum) (o : Op)
    (h : agree p q) : agree (applyOp innerWidth p o) (applyOp innerWidth q o) := by
  obtain ⟨h1, h2, h3, h4, h5, h6⟩ := h
  cases o with
  | update t =>
    by_cases hs : p.isSwinging
    · have hs2 : q.isSwinging = true := by rw [← h3]; exact hs
      simp [applyOp, Pendulum.update, hs, hs2,
        Pendulum.updatePendulumPosition, agree, h1, h2, h4]
    · have hs2 : ¬ (q.isSwinging = true) := by rw [← h3]; exact hs
      simp [applyOp, Pendulum.update, hs, hs2,
        Pendulum.updatePendulumPosition, agree, h1, h2, h4]
  | setAngle x y =>
    simp [applyOp, Pendulum.setAngleFromMouse,
      Pendulum.updatePendulumPosition, agree, h2, h3, h4]
  | start t =>
    simp [applyOp, Pendulum.startSwinging, agree, h1, h4, h5, h6]
  | stop =>
    simp [applyOp, Pendulum.stopSwinging, agree, h1, h2, h4, h5, h6]

/-- A sequence of operations preserves agreement on all fields other than
`frequency` and `amplitude`. -/
theorem applyOps_agree (innerWidth : ℝ) (ops : List Op) :
    ∀ p q : Pendulum, agree p q →
      agree (applyOps innerWidth p ops) (applyOps innerWidth q ops) := by
  induction ops with
  | nil => intro p q h; exact h
  | cons o ops ih =>
    intro p q h
    exact ih (applyOp innerWidth p o) (applyOp innerWidth q o)
      (applyOp_agree innerWidth p q o h)

/-- Concrete swinging pendulum used to refute C10 as literally stated. -/
def pA : Pendulum :=
  { string := mesh0
    ball := mesh0
    frequency := 1
    amplitude := 1
    isSwinging := true
    angle := 0
    velocity := 0
    lastUpdateTime := 0 }

/-- Like `pA` but with different frequency, amplitude and ball rotation. -/
def pB : Pendulum :=
  { string := mesh0
    ball := { rotation := { z := 1 } }
    frequency := 2
    amplitude := 3
    isSwinging := true
    angle := 0
    velocity := 0
    lastUpdateTime := 0 }

/-- Like `pB` but with the same meshes as `pA`. -/
def pC : Pendulum := { pB with ball := mesh0 }

/-- Counterexample to claim C10 as stated: `pA` and `pB` agree on angle,
velocity, `isSwinging` and `lastUpdateTime` and differ in frequency and
amplitude, yet the identical call sequence `[stop]` leaves their ball
transforms different (`stopSwinging` writes no transform), so the claimed
identical visual-transform values fail; agreement of the initial
transforms is also required. -/
theorem freq_amp_independence_counterexample :
    pA.angle = pB.angle ∧ pA.velocity = pB.velocity ∧
    pA.isSwinging = pB.isSwinging ∧
    pA.lastUpdateTime = pB.lastUpdateTime ∧
    pA.frequency ≠ pB.frequency ∧ pA.amplitude ≠ pB.amplitude ∧
    (applyOps 2 pA [Op.stop]).ball.rotation.z ≠
      (applyOps 2 pB [Op.stop]).ball.rotation.z := by
  refine ⟨rfl, rfl, rfl, rfl, ?_, ?_, ?_⟩
  · show (1 : ℝ) ≠ 2
    norm_num
  · show (1 : ℝ) ≠ 3
    norm_num
  · show (0 : ℝ) ≠ 1
    norm_num

/-- Claim C10 (amended): in the physics variant, the motion state is
independent of the `frequency` and `amplitude` fields: two pendulums that
agree on angle, velocity, `isSwinging`, `lastUpdateTime` and both visual
transforms, while differing in frequency and amplitude, are carried by any
identical sequence of `update`, `setAngleFromMouse`, `startSwinging` and
`stopSwinging` calls to states with identical angle, velocity,
`isSwinging`, `lastUpdateTime` and visual transforms (the two fields are
stored by the constructor but never read by any operation). -/
theorem freq_amp_independence (innerWidth : ℝ) (p q : Pendulum)
    (ops : List Op)
    (h1 : p.angle = q.angle) (h2 : p.velocity = q.velocity)
    (h3 : p.isSwinging = q.isSwinging)
    (h4 : p.lastUpdateTime = q.lastUpdateTime)
    (h5 : p.string = q.string) (h6 : p.ball = q.ball)
    (hf : p.frequency ≠ q.frequency) (ha : p.amplitude ≠ q.amplitude) :
    (applyOps innerWidth p ops).angle = (applyOps innerWidth q ops).angle ∧
    (applyOps innerWidth p ops).velocity =
      (applyOps innerWidth q ops).velocity ∧
    (applyOps innerWidth p ops).isSwinging =
      (applyOps innerWidth q ops).isSwinging ∧
    (applyOps innerWidth p ops).lastUpdateTime =
      (applyOps innerWidth q ops).lastUpdateTime ∧
    (applyOps innerWidth p ops).string = (applyOps innerWidth q ops).string ∧
    (applyOps innerWidth p ops).ball = (applyOps innerWidth q ops).ball :=
  applyOps_agree innerWidth ops p q ⟨h1, h2, h3, h4, h5, h6⟩

/-- Witness for the amended C10 at `pA`, `pC` and a four-call sequence. -/
theorem freq_amp_independence_witness :
    pA.angle = pC.angle ∧ pA.velocity = pC.velocity ∧
    pA.isSwinging = pC.isSwinging ∧
    pA.lastUpdateTime = pC.lastUpdateTime ∧
    pA.string = pC.string ∧ pA.ball = pC.ball ∧
    pA.frequency ≠ pC.frequency ∧ pA.amplitude ≠ pC.amplitude ∧
    ((applyOps 2 pA [Op.update 16, Op.setAngle 1 2, Op.start 20,
        Op.stop]).angle =
      (applyOps 2 pC [Op.update 16, Op.setAngle 1 2, Op.start 20,
        Op.stop]).angle ∧
    (applyOps 2 pA [Op.update 16, Op.setAngle 1 2, Op.start 20,
        Op.stop]).velocity =
      (applyOps 2 pC [Op.update 16, Op.setAngle 1 2, Op.start 20,
        Op.stop]).velocity ∧
    (applyOps 2 pA [Op.update 16, Op.setAngle 1 2, Op.start 20,
        Op.stop]).isSwinging =
      (applyOps 2 pC [Op.update 16, Op.setAngle 1 2, Op.start 20,
        Op.stop]).isSwinging ∧
    (applyOps 2 pA [Op.update 16, Op.setAngle 1 2, Op.start 20,
        Op.stop]).lastUpdateTime =
      (applyOps 2 pC [Op.update 16, Op.setAngle 1 2, Op.start 20,
        Op.stop]).lastUpdateTime ∧
    (applyOps 2 pA [Op.update 16, Op.setAngle 1 2, Op.start 20,
        Op.stop]).string =
      (applyOps 2 pC [Op.update 16, Op.setAngle 1 2, Op.start 20,
        Op.stop]).string ∧
    (applyOps 2 pA [Op.update 16, Op.setAngle 1 2, Op.start 20,
        Op.stop]).ball =
      (applyOps 2 pC [Op.update 16, Op.setAngle 1 2, Op.start 20,
        Op.stop]).ball) :=
  ⟨rfl, rfl, rfl, rfl, rfl, rfl,
   by show (1 : ℝ) ≠ 2; norm_num,
   by show (1 : ℝ) ≠ 3; norm_num,
   freq_amp_independence 2 pA pC
     [Op.update 16, Op.setAngle 1 2, Op.start 20, Op.stop]
     rfl rfl rfl rfl rfl rfl
     (by show (1 : ℝ) ≠ 2; norm_num)
     (by show (1 : ℝ) ≠ 3; norm_num)⟩

/-- Trajectory of repeated `update` calls at a fixed time step of `dt`
seconds (`1000 * dt` milliseconds per call, the times the render loop
would pass at a fixed frame interval). -/
noncomputable def traj (dt : ℝ) (p : Pendulum) : ℕ → Pendulum
  | 0 => p
  | n + 1 => (traj dt p n).update
      (p.lastUpdateTime + ((n : ℝ) + 1) * (1000 * dt))

/-- Mechanical energy of the integrator state: kinetic plus potential of
the simple pendulum with the source's gravity/length ratio `9.81/8`. -/
noncomputable def energy (θ v : ℝ) : ℝ :=
  v ^ 2 / 2 + 9.81 / 8 * (1 - Real.cos θ)

/-- The pre-damping velocity after one integrator step of `dt` seconds
from angle `θ` and velocity `v`. -/
noncomputable def wnext (θ v dt : ℝ) : ℝ :=
  v + -9.81 / 8 * Real.sin θ * dt

/-- Cubic bound on the error of the linear sine approximation on
`[-1, 1]`. -/
theorem abs_sin_sub_le_cube (u : ℝ) (hu : |u| ≤ 1) :
    |Real.sin u - u| ≤ |u| ^ 3 / 4 := by
  rcases lt_trichotomy u 0 with hneg | hzero | hpos
  · have hpos2 : 0 < -u := by linarith
    have h1 := Real.sin_lt hpos2
    have h2 := Real.sin_gt_sub_cube hpos2
      (by rw [abs_of_neg hneg] at hu; exact hu)
    rw [Real.sin_neg] at h1 h2
    have hgt : 0 < Real.sin u - u := by linarith
    rw [abs_of_pos hgt, abs_of_neg hneg]
    have hcube : (-u) ^ 3 = -(u ^ 3) := by ring
    rw [hcube] at h2 ⊢
    linarith
  · simp [hzero]
  · have h1 := Real.sin_lt hpos
    have h2 := Real.sin_gt_sub_cube hpos (by rw [abs_of_pos hpos] at hu; exact hu)
    have hlt : Real.sin u - u < 0 := by linarith
    rw [abs_of_neg hlt, abs_of_pos hpos]
    linarith

/-- Second-order Taylor lower bound for the cosine of a perturbed angle,
with a cubic error term. -/
theorem cos_add_lower (θ u : ℝ) (hu : |u| ≤ 1) :
    Real.cos θ - Real.sin θ * u - u ^ 2 / 2 - |u| ^ 3 / 4 ≤
      Real.cos (θ + u) := by
  have hcos := Real.cos_add θ u
  have h1 : 1 - u ^ 2 / 2 ≤ Real.cos u := Real.one_sub_sq_div_two_le_cos
  have h2 : Real.cos u ≤ 1 := Real.cos_le_one u
  have h3 : Real.cos θ ≤ 1 := Real.cos_le_one θ
  have h5 := abs_sin_sub_le_cube u hu
  have k1 : Real.cos θ - u ^ 2 / 2 ≤ Real.cos θ * Real.cos u := by
    have hprod : 0 ≤ (1 - Real.cos θ) * (1 - Real.cos u) :=
      mul_nonneg (by linarith) (by linarith)
    nlinarith [hprod]
  have k2 : Real.sin θ * Real.sin u ≤ Real.sin θ * u + |u| ^ 3 / 4 := by
    have habs : |Real.sin θ * (Real.sin u - u)| ≤ |u| ^ 3 / 4 := by
      rw [abs_mul]
      calc |Real.sin θ| * |Real.sin u - u| ≤ 1 * (|u| ^ 3 / 4) :=
        mul_le_mul (Real.abs_sin_le_one θ) h5 (abs_nonneg _) (by norm_num)
      _ = |u| ^ 3 / 4 := one_mul _
    have hle := (abs_le.mp habs).2
    nlinarith [hle]
  rw [hcos]
  linarith

/-- Core dissipation estimate, phrased over the pre-damping velocity `w`:
for a step of at most 1/200 s and `|w| ≤ 3`, one integrator step loses at
least `3/100000 * w^2` of energy — the per-step damping of the factor
`0.99995` outweighs the energy injected by the explicit Euler error. -/
theorem energy_step_w (θ w dt : ℝ) (h0 : 0 ≤ dt) (h1 : dt ≤ 1 / 200)
    (hw : |w| ≤ 3) :
    energy (θ + w * dt) (w * 0.99995) ≤
      energy θ (w + 9.81 / 8 * Real.sin θ * dt) - 3 / 100000 * w ^ 2 := by
  have hu1 : |w * dt| ≤ 1 := by
    rw [abs_mul, abs_of_nonneg h0]
    calc |w| * dt ≤ 3 * (1 / 200) :=
      mul_le_mul hw h1 h0 (by norm_num)
    _ ≤ 1 := by norm_num
  have hcos := cos_add_lower θ (w * dt) hu1
  have hw2 : w ^ 2 ≤ 9 := by nlinarith [sq_abs w, abs_nonneg w]
  have hdt2 : dt ^ 2 ≤ 1 / 40000 := by nlinarith
  have hdt3 : dt ^ 3 ≤ 1 / 200 * dt ^ 2 := by nlinarith [sq_nonneg dt]
  have habs3 : |w * dt| ^ 3 ≤ 3 * (w ^ 2 * dt ^ 3) := by
    rw [abs_mul, abs_of_nonneg h0]
    have hwc : |w| ^ 3 ≤ 3 * w ^ 2 := by nlinarith [sq_abs w, abs_nonneg w]
    have hexp : (|w| * dt) ^ 3 = |w| ^ 3 * dt ^ 3 := by ring
    rw [hexp]
    nlinarith [pow_nonneg h0 3]
  have he1 : w ^ 2 * dt ^ 3 ≤ 1 / 200 * (w ^ 2 * dt ^ 2) := by
    nlinarith [sq_nonneg w]
  have he2 : w ^ 2 * dt ^ 2 ≤ 1 / 40000 * w ^ 2 := by
    nlinarith [sq_nonneg w, sq_nonneg dt]
  have he3 : 0 ≤ Real.sin θ ^ 2 * dt ^ 2 := by positivity
  unfold energy
  nlinarith [hcos, habs3, he1, he2, he3]

/-- The dissipation estimate in terms of the state `(θ, v)` before the
step. -/
theorem energy_step (θ v dt : ℝ) (h0 : 0 ≤ dt) (h1 : dt ≤ 1 / 200)
    (hw : |wnext θ v dt| ≤ 3) :
    energy (θ + wnext θ v dt * dt) (wnext θ v dt * 0.99995) ≤
      energy θ v - 3 / 100000 * wnext θ v dt ^ 2 := by
  have h := energy_step_w θ (wnext θ v dt) dt h0 h1 hw
  have hv : wnext θ v dt + 9.81 / 8 * Real.sin θ * dt = v := by
    unfold wnext; ring
  rwa [hv] at h

/-- The energy is never negative. -/
theorem energy_nonneg (θ v : ℝ) : 0 ≤ energy θ v := by
  unfold energy
  nlinarith [Real.cos_le_one θ, sq_nonneg v]

/-- At energy at most `9.81/8` the pre-damping velocity of the next step
is bounded by 3. -/
theorem wnext_abs_le (θ v dt : ℝ) (hE : energy θ v ≤ 9.81 / 8)
    (h0 : 0 ≤ dt) (h1 : dt ≤ 1 / 200) : |wnext θ v dt| ≤ 3 := by
  have hcos : Real.cos θ ≤ 1 := Real.cos_le_one θ
  have hv2 : v ^ 2 ≤ 2 * (9.81 / 8) := by
    unfold energy at hE
    nlinarith
  have hvabs : |v| ≤ 1.6 := by
    nlinarith [sq_nonneg (|v| - 1.6), sq_abs v, abs_nonneg v]
  have hterm : |(-9.81 / 8 : ℝ) * Real.sin θ * dt| ≤ 9.81 / 8 * (1 / 200) := by
    rw [abs_mul, abs_mul, abs_of_nonneg h0]
    have hs : |Real.sin θ| ≤ 1 := Real.abs_sin_le_one θ
    have hc : |(-9.81 / 8 : ℝ)| = 9.81 / 8 := by
      rw [abs_of_neg (by norm_num : (-9.81 / 8 : ℝ) < 0)]
      norm_num
    rw [hc]
    nlinarith [abs_nonneg (Real.sin θ)]
  unfold wnext
  calc |v + -9.81 / 8 * Real.sin θ * dt| ≤
      |v| + |(-9.81 / 8 : ℝ) * Real.sin θ * dt| := abs_add _ _
  _ ≤ 1.6 + 9.81 / 8 * (1 / 200) := add_le_add hvabs hterm
  _ ≤ 3 := by norm_num

/-- If the energy of a state is at most the energy of a rest state at
angle `θ0`, its cosine dominates `cos θ0`. -/
theorem cos_ge_of_energy_le (θ0 θ v : ℝ)
    (hE : energy θ v ≤ energy θ0 0) : Real.cos θ0 ≤ Real.cos θ := by
  unfold energy at hE
  nlinarith [sq_nonneg v]

/-- Confinement: an angle whose cosine dominates that of an angle inside
`(-pi/2, pi/2)` and which lies within 1/50 of the strip stays strictly
inside the strip. -/
theorem angle_confine (θ0 θ : ℝ) (h0 : |θ0| < Real.pi / 2)
    (hcos : Real.cos θ0 ≤ Real.cos θ)
    (hclose : |θ| ≤ Real.pi / 2 + 1 / 50) : |θ| < Real.pi / 2 := by
  by_contra hge
  push_neg at hge
  have hpi : (3 : ℝ) < Real.pi := Real.pi_gt_three
  have hcos0 : 0 < Real.cos θ0 :=
    Real.cos_pos_of_mem_Ioo ⟨(abs_lt.mp h0).1, (abs_lt.mp h0).2⟩
  have hnonpos : Real.cos |θ| ≤ 0 :=
    Real.cos_nonpos_of_pi_div_two_le_of_le hge (by linarith)
  rw [Real.cos_abs] at hnonpos
  linarith

/-- Shape of one trajectory step while swinging: the update at the next
scheduled time performs one fixed-`dt` integrator step. -/
theorem traj_step (dt : ℝ) (p : Pendulum) (n : ℕ)
    (hsw : (traj dt p n).isSwinging = true)
    (hlast : (traj dt p n).lastUpdateTime =
      p.lastUpdateTime + (n : ℝ) * (1000 * dt)) :
    (traj dt p (n + 1)).angle = (traj dt p n).angle +
      wnext (traj dt p n).angle (traj dt p n).velocity dt * dt ∧
    (traj dt p (n + 1)).velocity =
      wnext (traj dt p n).angle (traj dt p n).velocity dt * 0.99995 ∧
    (traj dt p (n + 1)).lastUpdateTime =
      p.lastUpdateTime + ((n : ℝ) + 1) * (1000 * dt) ∧
    (traj dt p (n + 1)).isSwinging = true := by
  have hdt : (p.lastUpdateTime + ((n : ℝ) + 1) * (1000 * dt) -
      (traj dt p n).lastUpdateTime) / 1000 = dt := by
    rw [hlast]
    field_simp
    ring
  have hunfold : traj dt p (n + 1) = (traj dt p n).update
      (p.lastUpdateTime + ((n : ℝ) + 1) * (1000 * dt)) := rfl
  rw [hunfold]
  simp only [Pendulum.update, hsw, if_true, Pendulum.updatePendulumPosition,
    hdt]
  refine ⟨?_, ?_, by trivial, by trivial⟩
  · unfold wnext; ring
  · unfold wnext; ring

/-- Invariant of the fixed-step trajectory started swinging at rest
inside `(-pi/2, pi/2)`: the pendulum keeps swinging on schedule, its
energy never exceeds the initial energy, and its angle stays strictly
inside `(-pi/2, pi/2)`. -/
theorem traj_invariant (dt : ℝ) (p : Pendulum) (h0 : 0 ≤ dt)
    (h6 : dt ≤ 1 / 200) (h1 : p.isSwinging = true) (h2 : p.velocity = 0)
    (h4 : |p.angle| < Real.pi / 2) :
    ∀ n : ℕ,
      (traj dt p n).isSwinging = true ∧
      (traj dt p n).lastUpdateTime =
        p.lastUpdateTime + (n : ℝ) * (1000 * dt) ∧
      energy (traj dt p n).angle (traj dt p n).velocity ≤
        energy p.angle 0 ∧
      |(traj dt p n).angle| < Real.pi / 2 := by
  have hcos0 : 0 < Real.cos p.angle :=
    Real.cos_pos_of_mem_Ioo ⟨(abs_lt.mp h4).1, (abs_lt.mp h4).2⟩
  have hE0k : energy p.angle 0 ≤ 9.81 / 8 := by
    unfold energy
    nlinarith
  intro n
  induction n with
  | zero =>
    refine ⟨h1, by simp [traj], ?_, h4⟩
    rw [show traj dt p 0 = p from rfl, h2]
  | succ n ih =>
    obtain ⟨hsw, hlast, hE, hang⟩ := ih
    have hEnk : energy (traj dt p n).angle (traj dt p n).velocity ≤
        9.81 / 8 := le_trans hE hE0k
    have hwb : |wnext (traj dt p n).angle (traj dt p n).velocity dt| ≤ 3 :=
      wnext_abs_le _ _ dt hEnk h0 h6
    obtain ⟨hsA, hsV, hsL, hsS⟩ := traj_step dt p n hsw hlast
    have hdec := energy_step (traj dt p n).angle (traj dt p n).velocity dt
      h0 h6 hwb
    have hE1 : energy (traj dt p (n + 1)).angle
        (traj dt p (n + 1)).velocity ≤ energy p.angle 0 := by
      rw [hsA, hsV]
      nlinarith [sq_nonneg (wnext (traj dt p n).angle
        (traj dt p n).velocity dt)]
    have hcosn : Real.cos p.angle ≤ Real.cos (traj dt p (n + 1)).angle :=
      cos_ge_of_energy_le p.angle _ _ hE1
    have hprod : |wnext (traj dt p n).angle (traj dt p n).velocity dt * dt| ≤
        3 * (1 / 200) := by
      rw [abs_mul, abs_of_nonneg h0]
      exact mul_le_mul hwb h6 h0 (by norm_num)
    have hclose : |(traj dt p (n + 1)).angle| ≤ Real.pi / 2 + 1 / 50 := by
      rw [hsA]
      have htri := abs_add (traj dt p n).angle
        (wnext (traj dt p n).angle (traj dt p n).velocity dt * dt)
      linarith
    refine ⟨hsS, ?_, hE1, angle_confine p.angle _ h4 hcosn hclose⟩
    rw [hsL]
    push_cast
    ring

/-- Claim C6: in the physics variant, starting to swing at rest from an
angle with `0 < |angle| < pi/2`, under repeated `update` calls at a fixed
small positive step (`dt` seconds per call, `dt ≤ 1/200`) with no
intervening `setAngleFromMouse` or mode change, the states never diverge
(the angle stays inside `(-pi/2, pi/2)` and the squared velocity stays
below 5/2) and `|velocity|` trends to 0. -/
theorem damping_converges (p : Pendulum) (dt : ℝ)
    (h1 : p.isSwinging = true) (h2 : p.velocity = 0)
    (h3 : 0 < |p.angle|) (h4 : |p.angle| < Real.pi / 2)
    (h5 : 0 < dt) (h6 : dt ≤ 1 / 200) :
    (∀ n : ℕ, |(traj dt p n).angle| < Real.pi / 2 ∧
      (traj dt p n).velocity ^ 2 ≤ 5 / 2) ∧
    Filter.Tendsto (fun n => |(traj dt p n).velocity|) Filter.atTop
      (nhds 0) := by
  have hinv := traj_invariant dt p h5.le h6 h1 h2 h4
  have hcos0 : 0 < Real.cos p.angle :=
    Real.cos_pos_of_mem_Ioo ⟨(abs_lt.mp h4).1, (abs_lt.mp h4).2⟩
  have hE0k : energy p.angle 0 ≤ 9.81 / 8 := by
    unfold energy
    nlinarith
  have hwb : ∀ n, |wnext (traj dt p n).angle (traj dt p n).velocity dt| ≤ 3 :=
    fun n => wnext_abs_le _ _ dt (le_trans (hinv n).2.2.1 hE0k) h5.le h6
  have hsAV := fun n => traj_step dt p n (hinv n).1 (hinv n).2.1
  have hstep : ∀ n,
      energy (traj dt p (n + 1)).angle (traj dt p (n + 1)).velocity ≤
        energy (traj dt p n).angle (traj dt p n).velocity -
        3 / 100000 *
          wnext (traj dt p n).angle (traj dt p n).velocity dt ^ 2 := by
    intro n
    rw [(hsAV n).1, (hsAV n).2.1]
    exact energy_step _ _ dt h5.le h6 (hwb n)
  constructor
  · intro n
    refine ⟨(hinv n).2.2.2, ?_⟩
    have hE := le_trans (hinv n).2.2.1 hE0k
    have hc := Real.cos_le_one (traj dt p n).angle
    unfold energy at hE
    nlinarith
  · have hanti : Antitone (fun n =>
        energy (traj dt p n).angle (traj dt p n).velocity) :=
      antitone_nat_of_succ_le (fun n => by
        have hd := hstep n
        nlinarith [sq_nonneg
          (wnext (traj dt p n).angle (traj dt p n).velocity dt)])
    have hbdd : BddBelow (Set.range (fun n =>
        energy (traj dt p n).angle (traj dt p n).velocity)) := by
      refine ⟨0, ?_⟩
      rintro x ⟨n, rfl⟩
      exact energy_nonneg _ _
    have hconv := tendsto_atTop_ciInf hanti hbdd
    have hconv2 := hconv.comp (Filter.tendsto_add_atTop_nat 1)
    have hdiff : Filter.Tendsto (fun n =>
        energy (traj dt p n).angle (traj dt p n).velocity -
        energy (traj dt p (n + 1)).angle (traj dt p (n + 1)).velocity)
        Filter.atTop (nhds 0) := by
      have hsub := hconv.sub hconv2
      simpa [Function.comp] using hsub
    have hg : Filter.Tendsto (fun n => (100000 / 3 : ℝ) *
        (energy (traj dt p n).angle (traj dt p n).velocity -
         energy (traj dt p (n + 1)).angle (traj dt p (n + 1)).velocity))
        Filter.atTop (nhds 0) := by
      simpa using hdiff.const_mul (100000 / 3 : ℝ)
    have hWsq : Filter.Tendsto (fun n =>
        wnext (traj dt p n).angle (traj dt p n).velocity dt ^ 2)
        Filter.atTop (nhds 0) := by
      refine squeeze_zero (fun n => sq_nonneg _) (fun n => ?_) hg
      have hd := hstep n
      nlinarith
    have hWabs : Filter.Tendsto (fun n =>
        |wnext (traj dt p n).angle (traj dt p n).velocity dt|)
        Filter.atTop (nhds 0) := by
      have hcont := (Real.continuous_sqrt.tendsto 0).comp hWsq
      simpa [Function.comp_def, Real.sqrt_sq_eq_abs, Real.sqrt_zero]
        using hcont
    have hVsucc : Filter.Tendsto (fun n =>
        |(traj dt p (n + 1)).velocity|) Filter.atTop (nhds 0) := by
      have heq : ∀ n, |(traj dt p (n + 1)).velocity| =
          |wnext (traj dt p n).angle (traj dt p n).velocity dt| * 0.99995 := by
        intro n
        rw [(hsAV n).2.1, abs_mul,
          abs_of_pos (by norm_num : (0 : ℝ) < 0.99995)]
      have hmul := hWabs.mul_const (0.99995 : ℝ)
      simp only [zero_mul] at hmul
      simpa [heq] using hmul
    exact (Filter.tendsto_add_atTop_iff_nat 1).mp hVsucc

/-- Concrete swinging pendulum at angle 1, at rest, used by witnesses. -/
def pSwing : Pendulum := { pRest with angle := 1 }

/-- Witness for C6 at `pSwing` with a 1 ms step. -/
theorem damping_converges_witness :
    pSwing.isSwinging = true ∧ pSwing.velocity = 0 ∧
    0 < |pSwing.angle| ∧ |pSwing.angle| < Real.pi / 2 ∧
    (0 : ℝ) < 1 / 1000 ∧ (1 / 1000 : ℝ) ≤ 1 / 200 ∧
    ((∀ n : ℕ, |(traj (1 / 1000) pSwing n).angle| < Real.pi / 2 ∧
      (traj (1 / 1000) pSwing n).velocity ^ 2 ≤ 5 / 2) ∧
     Filter.Tendsto (fun n => |(traj (1 / 1000) pSwing n).velocity|)
       Filter.atTop (nhds 0)) :=
  ⟨rfl, rfl,
   by rw [show pSwing.angle = 1 from rfl, abs_one]; norm_num,
   by rw [show pSwing.angle = 1 from rfl, abs_one]
      linarith [Real.pi_gt_three],
   by norm_num, by norm_num,
   damping_converges pSwing (1 / 1000) rfl rfl
     (by rw [show pSwing.angle = 1 from rfl, abs_one]; norm_num)
     (by rw [show pSwing.angle = 1 from rfl, abs_one]
         linarith [Real.pi_gt_three])
     (by norm_num) (by norm_num)⟩

end PendulumJS
